import Mathlib

/-!
Shallow embedding of the tiled geospatial inference pipeline of
`simple-sat-searcher` (`backend/services/deploy_service.py` and
`backend/deploy.py`, class `ModelDeployer`), together with proofs of the
frozen claims about it.

Numbers: Python floats are modelled as `ℚ`; Python ints as `Int`/`Nat`.
External effects (Earth Engine calls, the Keras model) are modelled as
explicit `Except`-valued parameters, so that the try/except structure of
the source is mirrored by `Except` case analysis.
-/

namespace SatSearch

/-- Python `int(q)`: truncation toward zero of a rational. -/
def pyInt (q : ℚ) : Int := Int.tdiv q.num q.den

/-- Python integer floor division `a // b`. -/
def pyFloorDiv (a b : Int) : Int := Int.fdiv a b

/-- Python `range(0, stop, step)` (for a possibly negative `stop`), as the
list `[0, step, 2*step, ...]` of values `< stop`. For `step = 0` the source
would raise `ValueError`; that case is handled at the call site. -/
def pyRange0 (stop : Int) (step : Nat) : List Nat :=
  (List.range (Int.fdiv (stop + step - 1) step).toNat).map (fun k => k * step)

/-- The numpy array returned by `ee.data.computePixels` after reshaping:
only its shape `(height, width, bands)` is relevant to the claims. -/
structure ImageData where
  height : Nat
  width : Nat
  bands : Nat
  deriving DecidableEq, Repr

/-- Shape of the numpy slice `image_data[i:i+chip, j:j+chip]`
(numpy slicing clamps at the array edge). -/
def patchShape (img : ImageData) (i j chip : Nat) : Nat × Nat × Nat :=
  (min chip (img.height - i), min chip (img.width - j), img.bands)

/-- The two nested loops of `_process_tile`
(`for i in range(0, shape[0] - chip_size + 1, stride)` and likewise for `j`
with `stride = chip_size // 2`), listing the candidate window offsets. -/
def chipOffsets (H W chip : Nat) : List (Nat × Nat) :=
  let stride := chip / 2
  (pyRange0 ((H : Int) - chip + 1) stride).flatMap
    (fun i => (pyRange0 ((W : Int) - chip + 1) stride).map (fun j => (i, j)))

/-- The window offsets that survive the source's shape check
`if patch.shape != input_shape: continue`. -/
def keptOffsets (img : ImageData) (input_shape : Nat × Nat × Nat) : List (Nat × Nat) :=
  (chipOffsets img.height img.width input_shape.1).filter
    (fun p => decide (patchShape img p.1 p.2 input_shape.1 = input_shape))

/-- A chip footprint: a closed ring of lon/lat vertices (shapely `Polygon`). -/
abbrev Polygon := List (ℚ × ℚ)

/-- The lon/lat corner data of one tile (fields of the `coords` entry of a
`tile_info` tuple: `coords[0]` and `coords[2]`). -/
structure TileCoords where
  lon_min : ℚ
  lat_min : ℚ
  lon_max : ℚ
  lat_max : ℚ
  deriving DecidableEq, Repr

/-- Direct pixel-to-coordinate mapping of a chip footprint
(`deploy_service.py` lines 251-275). -/
def chipPolygon (tc : TileCoords) (img : ImageData) (chip i j : Nat) : Polygon :=
  let x_per_pixel := (tc.lon_max - tc.lon_min) / (img.width : ℚ)
  let y_per_pixel := (tc.lat_max - tc.lat_min) / (img.height : ℚ)
  let nw := (tc.lon_min + (j : ℚ) * x_per_pixel, tc.lat_max - (i : ℚ) * y_per_pixel)
  let ne := (tc.lon_min + ((j : ℚ) + chip) * x_per_pixel, tc.lat_max - (i : ℚ) * y_per_pixel)
  let se := (tc.lon_min + ((j : ℚ) + chip) * x_per_pixel, tc.lat_max - ((i : ℚ) + chip) * y_per_pixel)
  let sw := (tc.lon_min + (j : ℚ) * x_per_pixel, tc.lat_max - ((i : ℚ) + chip) * y_per_pixel)
  [nw, ne, se, sw, nw]

/-- The geometries built for the kept chips of one tile, in loop order. -/
def chipGeoms (tc : TileCoords) (img : ImageData) (input_shape : Nat × Nat × Nat) : List Polygon :=
  (keptOffsets img input_shape).map (fun p => chipPolygon tc img input_shape.1 p.1 p.2)

/-- Earth Engine's per-request pixel ceiling (`max_pixels_per_tile` in both
`make_predictions` variants). -/
def max_pixels_per_tile : Nat := 262144

/-- `int(np.sqrt(max_pixels_per_tile))`. -/
def max_tile_dimension : Nat := Nat.sqrt max_pixels_per_tile

/-- The chip-size clamp of `make_predictions`:
`if self.chip_size > max_tile_dimension: self.chip_size = max_tile_dimension`. -/
def adjustChipSize (chip_size : Nat) : Nat :=
  if max_tile_dimension < chip_size then max_tile_dimension else chip_size

/-- Raster request dimensions `(width, height)` issued by
`deploy_service.py._process_tile` (lines 188-207): one side is the chip
size, the other is scaled by the latitude-corrected aspect ratio `r`. -/
def serviceRequestDims (chip_size : Nat) (r : ℚ) : Int × Int :=
  if 1 < r then ((chip_size : Int), pyInt ((chip_size : ℚ) / r))
  else (pyInt ((chip_size : ℚ) * r), (chip_size : Int))

/-- The latitude-corrected aspect ratio of a tile
(`deploy_service.py` lines 187-192); `cosLatMid` stands for
`np.cos(np.radians(lat_mid))`. -/
def aspectOfTile (tc : TileCoords) (cosLatMid : ℚ) : ℚ :=
  ((tc.lon_max - tc.lon_min) / (tc.lat_max - tc.lat_min)) * cosLatMid

/-- Raster request dimensions `(width, height)` issued by
`deploy.py._process_tile` (lines 208-213): `chip_size + 2` on both sides. -/
def deployRequestDims (chip_size : Nat) : Nat × Nat :=
  (chip_size + 2, chip_size + 2)

/-- The mutable deployer state relevant to the claims. -/
structure Deployer where
  chip_size : Nat
  deriving DecidableEq, Repr

/-- A logged per-tile warning, carrying the tile's grid coordinates.
`fetchFailed = true` models `"Failed to get data for tile at (x, y)"`,
`fetchFailed = false` models `"Error processing tile at (x, y)"`. -/
structure Warning where
  x : Nat
  y : Nat
  fetchFailed : Bool
  deriving DecidableEq, Repr

/-- The observable outcome of `_process_tile`: the returned
`(geometries, confidences)` pair, the warnings logged, and the number of
fetch attempts actually issued to Earth Engine. -/
structure TileResult where
  geometries : List Polygon
  confidences : List ℚ
  warnings : List Warning
  fetchAttempts : Nat
  deriving DecidableEq, Repr

/-- The external world seen by one `_process_tile` invocation: the outcome
of each Earth Engine fetch attempt, and the outcome of the single
`model.predict` batch call on the kept chips. -/
structure TileWorld where
  fetch : Nat → Except String ImageData
  predict : List (Nat × Nat) → Except String (List ℚ)

/-- The retry loop `for attempt in range(tries)` of `_process_tile`:
first successful fetch wins; returns the image (if any) and the number of
attempts made. -/
def fetchFirst (fetch : Nat → Except String ImageData) : Nat → Nat → Option ImageData × Nat
  | a, 0 => (none, a)
  | a, Nat.succ rem =>
    match fetch a with
    | Except.ok img => (some img, a + 1)
    | Except.error _ => fetchFirst fetch (a + 1) rem

/-- `_process_tile` fetch phase starting from attempt 0. -/
def fetchLoop (fetch : Nat → Except String ImageData) (tries : Nat) : Option ImageData × Nat :=
  fetchFirst fetch 0 tries

/-- Shallow embedding of `ModelDeployer._process_tile`
(`deploy_service.py` lines 175-308). The windowing chip size is
`input_shape.1`, taken from the model, not from `self.chip_size`. -/
def processTile (tc : TileCoords) (x y : Nat) (input_shape : Nat × Nat × Nat)
    (w : TileWorld) (pred_threshold : ℚ) (tries : Nat) : TileResult :=
  match fetchLoop w.fetch tries with
  | (none, a) =>
    -- all attempts failed: warn and return ([], []) — unless tries = 0, in
    -- which case the loop body never ran and `image_data is None` returns
    -- silently.
    if 0 < tries then ⟨[], [], [⟨x, y, true⟩], a⟩ else ⟨[], [], [], a⟩
  | (some img, a) =>
    let chip := input_shape.1
    if chip / 2 = 0 then
      -- Python `range(0, _, 0)` raises ValueError, caught by the broad
      -- except clause: warn and return ([], []).
      ⟨[], [], [⟨x, y, false⟩], a⟩
    else
      let kept := keptOffsets img input_shape
      let geoms := chipGeoms tc img input_shape
      if kept = [] then ⟨[], [], [], a⟩
      else
        match w.predict kept with
        | Except.error _ => ⟨[], [], [⟨x, y, false⟩], a⟩
        | Except.ok preds =>
          let dets := (preds.zip geoms).filter (fun pr => decide (pred_threshold ≤ pr.1))
          ⟨dets.map (fun pr => pr.2), dets.map (fun pr => pr.1), [], a⟩

/-- The region bounding box as used by `make_predictions`: the corners
`coords[0] = (lon0, lat0)` and `coords[2] = (lon2, lat2)` of
`region_ee.bounds().getInfo()`. -/
structure RegionBounds where
  lon0 : ℚ
  lat0 : ℚ
  lon2 : ℚ
  lat2 : ℚ
  deriving DecidableEq, Repr

/-- One invocation of the progress callback. `incremental = some (dets, bb)`
models the call `progress_callback(processed, total, incremental_predictions,
bounding_box)`; `incremental = none` models `progress_callback(processed,
total)`. -/
structure CallbackEvent where
  processed : Nat
  total : Nat
  incremental : Option (List (Polygon × ℚ) × RegionBounds)
  deriving DecidableEq, Repr

/-- The returned GeoDataFrame: its `geometry` and `confidence` columns. -/
structure GeoDataFrame where
  geometry : List Polygon
  confidence : List ℚ
  deriving DecidableEq, Repr

/-- `gpd.GeoDataFrame(columns=[geometry, confidence], ...)`: the empty
well-formed frame returned on the no-detections and error paths. -/
def empty_gdf : GeoDataFrame := ⟨[], []⟩

/-- The caller-observable outcome of one `make_predictions` run. `error` is
the message logged by the top-level `except` clause, `none` when the run
completed. -/
structure RunOutput where
  gdf : GeoDataFrame
  events : List CallbackEvent
  warnings : List Warning
  total_tiles : Nat
  processed_tiles : Nat
  error : Option String
  deriving DecidableEq, Repr

/-- Loop state of the result-collection loop of `make_predictions`. -/
structure RunAcc where
  geoms : List Polygon
  confs : List ℚ
  processed : Nat
  events : List CallbackEvent
  warnings : List Warning
  deriving DecidableEq, Repr

/-- The fixed data threaded through the tile-processing loop. -/
structure RunCfg where
  tileCoordsOf : Nat × Nat → TileCoords
  input_shape : Nat × Nat × Nat
  worldOf : Nat × Nat → TileWorld
  pred_threshold : ℚ
  tries : Nat
  total_tiles : Nat
  hasCallback : Bool
  bounding_box : RegionBounds

/-- The callback invocation(s) triggered by one completed tile
(`deploy_service.py` lines 452-486): with-increment when the tile yielded
geometries, plain progress otherwise, nothing without a callback. -/
def eventOf (cfg : RunCfg) (processed : Nat) (r : TileResult) : List CallbackEvent :=
  if cfg.hasCallback then
    if r.geometries = [] then [⟨processed, cfg.total_tiles, none⟩]
    else [⟨processed, cfg.total_tiles, some (r.geometries.zip r.confidences, cfg.bounding_box)⟩]
  else []

/-- One iteration of the `as_completed` collection loop. -/
def tileStep (cfg : RunCfg) (acc : RunAcc) (t : Nat × Nat) : RunAcc :=
  let r := processTile (cfg.tileCoordsOf t) t.1 t.2 cfg.input_shape (cfg.worldOf t)
    cfg.pred_threshold cfg.tries
  { geoms := acc.geoms ++ r.geometries
    confs := acc.confs ++ r.confidences
    processed := acc.processed + 1
    events := acc.events ++ eventOf cfg (acc.processed + 1) r
    warnings := acc.warnings ++ r.warnings }

/-- The whole collection loop over the tile list. Batching (batch size 500)
and the worker pool do not change which tiles are processed; completion
order is modelled as submission order. -/
def runTiles (cfg : RunCfg) (tiles : List (Nat × Nat)) : RunAcc :=
  tiles.foldl (tileStep cfg) ⟨[], [], 0, [], []⟩

/-- `(pixels + self.chip_size - 1) // self.chip_size`. -/
def n_tiles_int (pixels : Int) (chip : Nat) : Int :=
  pyFloorDiv (pixels + chip - 1) chip

/-- `total_tiles = n_tiles_x * n_tiles_y`. -/
def totalTilesCalc (wp hp : Int) (chip : Nat) : Int :=
  n_tiles_int wp chip * n_tiles_int hp chip

/-- The tile grid enumeration `for y in range(n_tiles_y): for x in
range(n_tiles_x)`, emitting grid coordinates `(x, y)`. -/
def tileGrid (nx ny : Int) : List (Nat × Nat) :=
  (List.range ny.toNat).flatMap (fun y => (List.range nx.toNat).map (fun x => (x, y)))

/-- Linear interpolation of a tile's lon/lat corners within the region
bounding box (`deploy_service.py` lines 420-424). -/
def tileCoordsCalc (b : RegionBounds) (nx ny : Int) (x y : Nat) : TileCoords :=
  { lon_min := b.lon0 + (x : ℚ) * (b.lon2 - b.lon0) / (nx : ℚ)
    lat_min := b.lat0 + (y : ℚ) * (b.lat2 - b.lat0) / (ny : ℚ)
    lon_max := b.lon0 + ((x : ℚ) + 1) * (b.lon2 - b.lon0) / (nx : ℚ)
    lat_max := b.lat0 + ((y : ℚ) + 1) * (b.lat2 - b.lat0) / (ny : ℚ) }

/-- `width_pixels = int(width_meters / scale)` where `width_meters =
abs(Δlon) * meters_per_degree_lon` and `meters_per_degree_lon =
111320 * cos(mean latitude)`; `cosMeanLat` stands for that cosine. -/
def widthPixelsCalc (b : RegionBounds) (cosMeanLat scale : ℚ) : Int :=
  pyInt (abs (b.lon2 - b.lon0) * (111320 * cosMeanLat) / scale)

/-- `height_pixels = int(height_meters / scale)` where `height_meters =
abs(Δlat) * 111320`. -/
def heightPixelsCalc (b : RegionBounds) (scale : ℚ) : Int :=
  pyInt (abs (b.lat2 - b.lat0) * 111320 / scale)

/-- The external world of one `make_predictions` run: the outcome of the
setup phase (`get_satellite_collection` + `region_ee.bounds().getInfo()`,
which hit the network and may throw), the cosine of the region's mean
latitude, the pixel scale (`PIXEL_SIZE[collection]`, 10 m), the model's
declared input shape, and each tile's external world. -/
structure RunEnv where
  setup : Except String RegionBounds
  cosMeanLat : ℚ
  scale : ℚ
  input_shape : Nat × Nat × Nat
  worldOf : Nat × Nat → TileWorld
  hasCallback : Bool

/-- `n_tiles_x` as computed by `make_predictions`: the region's width in
pixels divided (ceiling) by the clamped chip size. -/
def nxOf (d : Deployer) (env : RunEnv) (b : RegionBounds) : Int :=
  n_tiles_int (widthPixelsCalc b env.cosMeanLat env.scale) (adjustChipSize d.chip_size)

/-- `n_tiles_y` as computed by `make_predictions`. -/
def nyOf (d : Deployer) (env : RunEnv) (b : RegionBounds) : Int :=
  n_tiles_int (heightPixelsCalc b env.scale) (adjustChipSize d.chip_size)

/-- The collection-loop configuration assembled by `make_predictions`:
tile corners by linear interpolation, the model input shape, the per-tile
worlds, the threshold, `tries = 2` (the literal passed at
`deploy_service.py` line 441), the total tile count, and the run's
bounding box. -/
def runCfgOf (d : Deployer) (env : RunEnv) (pred_threshold : ℚ) (b : RegionBounds) : RunCfg :=
  { tileCoordsOf := fun t => tileCoordsCalc b (nxOf d env b) (nyOf d env b) t.1 t.2
    input_shape := env.input_shape
    worldOf := env.worldOf
    pred_threshold := pred_threshold
    tries := 2
    total_tiles := (nxOf d env b * nyOf d env b).toNat
    hasCallback := env.hasCallback
    bounding_box := b }

/-- The tile list enumerated by `make_predictions`. -/
def tilesOf (d : Deployer) (env : RunEnv) (b : RegionBounds) : List (Nat × Nat) :=
  tileGrid (nxOf d env b) (nyOf d env b)

/-- The body of `make_predictions` after a successful setup phase
(`deploy_service.py` lines 350-544): geometry-to-pixel conversion, chip-size
clamp (a mutation of `self.chip_size`), tile grid, collection loop, and
result assembly. Returns the run outcome and the updated deployer state. -/
def makePredictionsOk (d : Deployer) (env : RunEnv) (pred_threshold : ℚ)
    (b : RegionBounds) : RunOutput × Deployer :=
  let acc := runTiles (runCfgOf d env pred_threshold b) (tilesOf d env b)
  ({ gdf := if acc.geoms = [] then empty_gdf else ⟨acc.geoms, acc.confs⟩
     events := acc.events
     warnings := acc.warnings
     total_tiles := (nxOf d env b * nyOf d env b).toNat
     processed_tiles := acc.processed
     error := none },
   { d with chip_size := adjustChipSize d.chip_size })

/-- `make_predictions` inside its top-level `try`. -/
def makePredictionsBody (d : Deployer) (env : RunEnv) (pred_threshold : ℚ) :
    Except String (RunOutput × Deployer) :=
  match env.setup with
  | Except.error e => Except.error e
  | Except.ok b => Except.ok (makePredictionsOk d env pred_threshold b)

/-- `ModelDeployer.make_predictions`: the top-level `except Exception`
clause converts any escaped exception into an empty well-formed
GeoDataFrame (`deploy_service.py` lines 546-551). -/
def makePredictions (d : Deployer) (env : RunEnv) (pred_threshold : ℚ) :
    RunOutput × Deployer :=
  match makePredictionsBody d env pred_threshold with
  | Except.ok r => r
  | Except.error e =>
    ({ gdf := empty_gdf, events := [], warnings := [], total_tiles := 0,
       processed_tiles := 0, error := some e }, d)

/-- The per-tile results of the collection loop, in submission order. -/
def tileResults (cfg : RunCfg) (tiles : List (Nat × Nat)) : List TileResult :=
  tiles.map (fun t => processTile (cfg.tileCoordsOf t) t.1 t.2 cfg.input_shape (cfg.worldOf t)
    cfg.pred_threshold cfg.tries)

/-- The callback events produced by a list of tile results, with the
processed-tile counter starting at `base`. -/
def eventsFrom (cfg : RunCfg) : Nat → List TileResult → List CallbackEvent
  | _, [] => []
  | base, r :: rs => eventOf cfg (base + 1) r ++ eventsFrom cfg (base + 1) rs

/-! Concrete fixtures used to instantiate hypotheses of the claim theorems
on closed inputs. -/

/-- A fixed tile-corner rectangle. -/
def tcFix : TileCoords := ⟨0, 0, 1, 1⟩

/-- A tile world whose fetch always yields a 2×2×1 raster and whose model
scores every chip with confidence 1. -/
def okWorld : TileWorld where
  fetch := fun _ => Except.ok ⟨2, 2, 1⟩
  predict := fun ks => Except.ok (ks.map (fun _ => (1 : ℚ)))

/-- A tile world whose fetch always raises. -/
def errWorld : TileWorld where
  fetch := fun _ => Except.error "connection reset"
  predict := fun _ => Except.error "no data"

/-- A tile world whose fetch succeeds but whose classifier batch call
raises. -/
def inferThrowWorld : TileWorld where
  fetch := fun _ => Except.ok ⟨2, 2, 1⟩
  predict := fun _ => Except.error "batch inference failed"

/-- Region bounds chosen so the pixel dimensions come out 600 × 1, giving a
2 × 1 tile grid at the clamped 512 chip size. -/
def bTwoTiles : RegionBounds := ⟨0, 0, Rat.divInt 600 11132, Rat.divInt 1 11132⟩

/-- A run environment in which tile (0, 0)'s classifier batch call raises
and every other tile scores normally. -/
def envInferThrow : RunEnv where
  setup := Except.ok bTwoTiles
  cosMeanLat := 1
  scale := 10
  input_shape := (2, 2, 1)
  worldOf := fun t => if t = (0, 0) then inferThrowWorld else okWorld
  hasCallback := true

/-- A degenerate region: `lon2 = lon0`, so the bounding box has zero
width. -/
def bZeroWidth : RegionBounds := ⟨3, 0, 3, 5⟩

/-- A run environment over the degenerate region. -/
def envZeroWidth : RunEnv where
  setup := Except.ok bZeroWidth
  cosMeanLat := 1
  scale := 10
  input_shape := (2, 2, 1)
  worldOf := fun _ => okWorld
  hasCallback := true

/-- A run environment whose setup phase (collection / bounds query)
throws. -/
def envSetupFail : RunEnv where
  setup := Except.error "time window rejected"
  cosMeanLat := 1
  scale := 10
  input_shape := (2, 2, 1)
  worldOf := fun _ => okWorld
  hasCallback := true

/-- A fixed collection-loop configuration: tile (0, 0) fails to fetch,
every other tile scores one chip at confidence 1. -/
def cfgFix : RunCfg where
  tileCoordsOf := fun _ => tcFix
  input_shape := (2, 2, 1)
  worldOf := fun t => if t = (0, 0) then errWorld else okWorld
  pred_threshold := 0
  tries := 2
  total_tiles := 2
  hasCallback := true
  bounding_box := ⟨0, 0, 1, 1⟩

/-! ### Helper lemmas -/

lemma max_tile_dimension_eq : max_tile_dimension = 512 := by
  have h : max_pixels_per_tile = 512 * 512 := by norm_num [max_pixels_per_tile]
  rw [max_tile_dimension, h, Nat.sqrt_eq]

lemma adjustChipSize_le (c : Nat) : adjustChipSize c ≤ 512 := by
  rw [adjustChipSize, max_tile_dimension_eq]
  split <;> omega

lemma pyInt_eq_floor {q : ℚ} (hq : 0 ≤ q) : pyInt q = Int.floor q := by
  rw [pyInt, Rat.floor_def, Int.tdiv_eq_ediv (Rat.num_nonneg.mpr hq) (by positivity)]

lemma pyInt_natCast (n : Nat) : pyInt (n : ℚ) = (n : Int) := by
  rw [pyInt_eq_floor (by positivity), Int.floor_natCast]

lemma lt_fdivCeil_iff {stop : Int} {s : Nat} (hs : 0 < s) (k : Nat) :
    (k : Int) < Int.fdiv (stop + s - 1) s ↔ (k : Int) * s < stop := by
  have hs2 : (0 : Int) < (s : Int) := by exact_mod_cast hs
  rw [Int.fdiv_eq_ediv _ (le_of_lt hs2)]
  constructor
  · intro h
    have h2 : (k : Int) + 1 ≤ (stop + (s : Int) - 1) / (s : Int) := by omega
    have h3 := (Int.le_ediv_iff_mul_le hs2).mp h2
    rw [add_one_mul] at h3
    omega
  · intro h
    have h3 : ((k : Int) + 1) * (s : Int) ≤ stop + (s : Int) - 1 := by
      rw [add_one_mul]; omega
    have h4 := (Int.le_ediv_iff_mul_le hs2).mpr h3
    omega

lemma mem_pyRange0 {stop : Int} {s : Nat} (hs : 0 < s) (x : Nat) :
    x ∈ pyRange0 stop s ↔ ∃ k : Nat, x = k * s ∧ (x : Int) < stop := by
  rw [pyRange0]
  simp only [List.mem_map, List.mem_range]
  constructor
  · rintro ⟨k, hk, rfl⟩
    refine ⟨k, rfl, ?_⟩
    have h1 : (k : Int) < Int.fdiv (stop + s - 1) s := by omega
    have h2 := (lt_fdivCeil_iff hs k).mp h1
    exact_mod_cast h2
  · rintro ⟨k, rfl, hx⟩
    refine ⟨k, ?_, rfl⟩
    have h2 : (k : Int) * s < stop := by exact_mod_cast hx
    have h1 := (lt_fdivCeil_iff hs k).mpr h2
    omega

lemma pyRange0_step_zero (stop : Int) : pyRange0 stop 0 = [] := by
  rw [pyRange0]
  norm_num [Int.fdiv_zero]

lemma chipOffsets_stride_zero {H W chip : Nat} (hs : chip / 2 = 0) :
    chipOffsets H W chip = [] := by
  rw [chipOffsets]
  simp only [hs, pyRange0_step_zero, List.flatMap_nil]

lemma mem_chipOffsets {H W chip : Nat} (hs : 0 < chip / 2) (i j : Nat) :
    (i, j) ∈ chipOffsets H W chip ↔
      (∃ a, i = a * (chip / 2)) ∧ (∃ b, j = b * (chip / 2)) ∧
        i + chip ≤ H ∧ j + chip ≤ W := by
  rw [chipOffsets]
  simp only [List.mem_flatMap, List.mem_map]
  constructor
  · rintro ⟨i0, hi0, j0, hj0, heq⟩
    simp only [Prod.mk.injEq] at heq
    obtain ⟨rfl, rfl⟩ := heq
    obtain ⟨a, ha, hia⟩ := (mem_pyRange0 hs i0).mp hi0
    obtain ⟨b, hb, hjb⟩ := (mem_pyRange0 hs j0).mp hj0
    exact ⟨⟨a, ha⟩, ⟨b, hb⟩, by omega, by omega⟩
  · rintro ⟨⟨a, ha⟩, ⟨b, hb⟩, hiH, hjW⟩
    refine ⟨i, (mem_pyRange0 hs i).mpr ⟨a, ha, by omega⟩,
      j, (mem_pyRange0 hs j).mpr ⟨b, hb, by omega⟩, rfl⟩

lemma keptOffsets_eq_chipOffsets {H W B chip : Nat} :
    keptOffsets ⟨H, W, B⟩ (chip, chip, B) = chipOffsets H W chip := by
  rw [keptOffsets]
  apply List.filter_eq_self.mpr
  intro p hp
  rcases Nat.eq_zero_or_pos (chip / 2) with hs | hs
  · rw [chipOffsets_stride_zero hs] at hp
    simp at hp
  · obtain ⟨i, j⟩ := p
    obtain ⟨_, _, hiH, hjW⟩ := (mem_chipOffsets hs i j).mp hp
    have hiH2 : i + chip ≤ H := hiH
    have hjW2 : j + chip ≤ W := hjW
    have h1 : min chip (H - i) = chip := Nat.min_eq_left (by omega)
    have h2 : min chip (W - j) = chip := Nat.min_eq_left (by omega)
    simp [patchShape, h1, h2]

lemma mem_keptOffsets {H W B chip : Nat} (hs : 0 < chip / 2) (i j : Nat) :
    (i, j) ∈ keptOffsets ⟨H, W, B⟩ (chip, chip, B) ↔
      (∃ a, i = a * (chip / 2)) ∧ (∃ b, j = b * (chip / 2)) ∧
        i + chip ≤ H ∧ j + chip ≤ W := by
  rw [keptOffsets_eq_chipOffsets, mem_chipOffsets hs]

lemma fetchFirst_allFail (fetch : Nat → Except String ImageData) (n : Nat) :
    ∀ a : Nat, (∀ k, k < n → ∃ e, fetch (a + k) = Except.error e) →
      fetchFirst fetch a n = (none, a + n) := by
  induction n with
  | zero => intro a _; simp [fetchFirst]
  | succ m ih =>
    intro a h
    obtain ⟨e, he⟩ := h 0 (Nat.succ_pos m)
    rw [Nat.add_zero] at he
    rw [fetchFirst, he]
    have hrec := ih (a + 1) (fun k hk => by
      have h2 := h (k + 1) (by omega)
      rwa [show a + (k + 1) = a + 1 + k by omega] at h2)
    rw [hrec, show a + 1 + m = a + (m + 1) from by omega]

lemma processTile_fetchFail {tc : TileCoords} {x y : Nat} {ish : Nat × Nat × Nat}
    {w : TileWorld} {τ : ℚ} {tries : Nat} (h0 : 0 < tries)
    (hfail : ∀ k, k < tries → ∃ e, w.fetch k = Except.error e) :
    processTile tc x y ish w τ tries = ⟨[], [], [⟨x, y, true⟩], tries⟩ := by
  have hl : fetchLoop w.fetch tries = (none, tries) := by
    rw [fetchLoop,
      fetchFirst_allFail w.fetch tries 0 (fun k hk => by rw [Nat.zero_add]; exact hfail k hk)]
    rw [Nat.zero_add]
  rw [processTile, hl]
  simp [h0]

lemma processTile_predictError {tc : TileCoords} {x y : Nat} {ish : Nat × Nat × Nat}
    {w : TileWorld} {τ : ℚ} {tries a : Nat} {img : ImageData}
    (hf : fetchLoop w.fetch tries = (some img, a)) (hs : ish.1 / 2 ≠ 0)
    (hk : keptOffsets img ish ≠ [])
    (he : ∃ e, w.predict (keptOffsets img ish) = Except.error e) :
    processTile tc x y ish w τ tries = ⟨[], [], [⟨x, y, false⟩], a⟩ := by
  obtain ⟨e, he⟩ := he
  rw [processTile, hf]
  simp [hs, hk, he]

lemma processTile_scored {tc : TileCoords} {x y : Nat} {ish : Nat × Nat × Nat}
    {w : TileWorld} {τ : ℚ} {tries a : Nat} {img : ImageData} {preds : List ℚ}
    (hf : fetchLoop w.fetch tries = (some img, a)) (hs : ish.1 / 2 ≠ 0)
    (hk : keptOffsets img ish ≠ [])
    (hp : w.predict (keptOffsets img ish) = Except.ok preds) :
    processTile tc x y ish w τ tries =
      ⟨((preds.zip (chipGeoms tc img ish)).filter
          (fun pr => decide (τ ≤ pr.1))).map (fun pr => pr.2),
       ((preds.zip (chipGeoms tc img ish)).filter
          (fun pr => decide (τ ≤ pr.1))).map (fun pr => pr.1),
       [], a⟩ := by
  rw [processTile, hf]
  simp [hs, hk, hp]

lemma processTile_length {tc : TileCoords} {x y : Nat} {ish : Nat × Nat × Nat}
    {w : TileWorld} {τ : ℚ} {tries : Nat} :
    (processTile tc x y ish w τ tries).confidences.length =
      (processTile tc x y ish w τ tries).geometries.length := by
  rcases hf : fetchLoop w.fetch tries with ⟨o, a⟩
  rw [processTile, hf]
  cases o with
  | none => dsimp only; split <;> rfl
  | some img =>
    dsimp only
    split
    · rfl
    · split
      · rfl
      · rcases hp : w.predict (keptOffsets img ish) with e | preds <;> simp [hp]

lemma processTile_confs_ge {tc : TileCoords} {x y : Nat} {ish : Nat × Nat × Nat}
    {w : TileWorld} {τ : ℚ} {tries : Nat} :
    ∀ c ∈ (processTile tc x y ish w τ tries).confidences, τ ≤ c := by
  rcases hf : fetchLoop w.fetch tries with ⟨o, a⟩
  rw [processTile, hf]
  cases o with
  | none => dsimp only; split <;> simp
  | some img =>
    dsimp only
    split
    · simp
    · split
      · simp
      · rcases hp : w.predict (keptOffsets img ish) with e | preds
        · simp [hp]
        · simp only [hp]
          intro c hc
          simp only [List.mem_map, List.mem_filter, decide_eq_true_eq] at hc
          obtain ⟨pr, ⟨_, hge⟩, rfl⟩ := hc
          exact hge

lemma tileResults_cons (cfg : RunCfg) (t : Nat × Nat) (ts : List (Nat × Nat)) :
    tileResults cfg (t :: ts) =
      processTile (cfg.tileCoordsOf t) t.1 t.2 cfg.input_shape (cfg.worldOf t)
        cfg.pred_threshold cfg.tries :: tileResults cfg ts := rfl

lemma foldl_tileStep_spec (cfg : RunCfg) (tiles : List (Nat × Nat)) :
    ∀ acc : RunAcc,
      tiles.foldl (tileStep cfg) acc =
        ⟨acc.geoms ++ ((tileResults cfg tiles).map TileResult.geometries).flatten,
         acc.confs ++ ((tileResults cfg tiles).map TileResult.confidences).flatten,
         acc.processed + tiles.length,
         acc.events ++ eventsFrom cfg acc.processed (tileResults cfg tiles),
         acc.warnings ++ ((tileResults cfg tiles).map TileResult.warnings).flatten⟩ := by
  induction tiles with
  | nil =>
    intro acc
    simp [tileResults, eventsFrom]
  | cons t ts ih =>
    intro acc
    rw [List.foldl_cons, ih (tileStep cfg acc t)]
    rw [tileResults_cons]
    simp only [tileStep, List.map_cons, List.flatten_cons, eventsFrom, List.append_assoc]
    refine RunAcc.mk.injEq .. ▸ ⟨rfl, rfl, by simp only [List.length_cons]; omega, rfl, rfl⟩

lemma runTiles_spec (cfg : RunCfg) (tiles : List (Nat × Nat)) :
    runTiles cfg tiles =
      ⟨((tileResults cfg tiles).map TileResult.geometries).flatten,
       ((tileResults cfg tiles).map TileResult.confidences).flatten,
       tiles.length,
       eventsFrom cfg 0 (tileResults cfg tiles),
       ((tileResults cfg tiles).map TileResult.warnings).flatten⟩ := by
  rw [runTiles, foldl_tileStep_spec]
  simp

lemma eventsFrom_nil (cfg : RunCfg) (base : Nat) : eventsFrom cfg base [] = [] := rfl

lemma eventsFrom_cons (cfg : RunCfg) (base : Nat) (r : TileResult) (rs : List TileResult) :
    eventsFrom cfg base (r :: rs) = eventOf cfg (base + 1) r ++ eventsFrom cfg (base + 1) rs :=
  rfl

lemma eventOf_callback (cfg : RunCfg) (hcb : cfg.hasCallback = true) (p : Nat)
    (r : TileResult) :
    eventOf cfg p r =
      [⟨p, cfg.total_tiles,
        if r.geometries = [] then none
        else some (r.geometries.zip r.confidences, cfg.bounding_box)⟩] := by
  rw [eventOf, if_pos hcb]
  split <;> simp_all

lemma eventsFrom_length (cfg : RunCfg) (hcb : cfg.hasCallback = true) :
    ∀ (base : Nat) (rs : List TileResult), (eventsFrom cfg base rs).length = rs.length := by
  intro base rs
  induction rs generalizing base with
  | nil => rfl
  | cons r rs ih =>
    rw [eventsFrom_cons, eventOf_callback cfg hcb]
    simp [ih]

lemma eventsFrom_getElem (cfg : RunCfg) (hcb : cfg.hasCallback = true) :
    ∀ (rs : List TileResult) (base k : Nat),
      (eventsFrom cfg base rs)[k]? = (rs[k]?).map (fun r =>
        ⟨base + k + 1, cfg.total_tiles,
         if r.geometries = [] then none
         else some (r.geometries.zip r.confidences, cfg.bounding_box)⟩) := by
  intro rs
  induction rs with
  | nil => intro base k; simp [eventsFrom_nil]
  | cons r rs ih =>
    intro base k
    rw [eventsFrom_cons, eventOf_callback cfg hcb]
    cases k with
    | zero =>
      rw [List.singleton_append, List.getElem?_cons_zero, List.getElem?_cons_zero]
      simp
    | succ m =>
      rw [List.singleton_append, List.getElem?_cons_succ, List.getElem?_cons_succ,
        ih (base + 1) m]
      simp only [show base + 1 + m + 1 = base + (m + 1) + 1 from by omega]

lemma n_tiles_int_natCast (p chip : Nat) (hc : 0 < chip) :
    n_tiles_int (p : Int) chip = Int.ceil ((p : ℚ) / (chip : ℚ)) := by
  have hc2 : (0 : Int) < (chip : Int) := by exact_mod_cast hc
  have hcq : (0 : ℚ) < (chip : ℚ) := by exact_mod_cast hc
  have key1 : (p + chip - 1) / chip * chip ≤ p + chip - 1 := Nat.div_mul_le_self _ _
  have key2 : p + chip - 1 < (p + chip - 1) / chip * chip + chip := Nat.lt_div_mul_add hc
  have hfd : n_tiles_int (p : Int) chip = (((p + chip - 1) / chip : Nat) : Int) := by
    rw [n_tiles_int, pyFloorDiv, Int.fdiv_eq_ediv _ (le_of_lt hc2),
      show (p : Int) + chip - 1 = ((p + chip - 1 : Nat) : Int) from by omega]
    exact_mod_cast (Int.natCast_div (p + chip - 1) chip).symm
  have hub : (p : ℚ) / chip ≤ (((p + chip - 1) / chip : Nat) : ℚ) := by
    rw [div_le_iff₀ hcq]
    exact_mod_cast (by omega : p ≤ (p + chip - 1) / chip * chip)
  have hlb : (((p + chip - 1) / chip : Nat) : ℚ) - 1 < (p : ℚ) / chip := by
    rw [lt_div_iff₀ hcq, sub_mul, one_mul]
    have h3 : (((p + chip - 1) / chip : Nat) : ℚ) * chip < (p : ℚ) + chip := by
      exact_mod_cast (by omega : (p + chip - 1) / chip * chip < p + chip)
    linarith
  rw [hfd, eq_comm, Int.ceil_eq_iff]
  constructor
  · push_cast
    exact hlb
  · push_cast
    exact hub

lemma makePredictions_setup_ok {d : Deployer} {env : RunEnv} {τ : ℚ} {b : RegionBounds}
    (hs : env.setup = Except.ok b) :
    makePredictions d env τ = makePredictionsOk d env τ b := by
  rw [makePredictions, makePredictionsBody, hs]

lemma makePredictions_setup_error {d : Deployer} {env : RunEnv} {τ : ℚ} {e : String}
    (hs : env.setup = Except.error e) :
    makePredictions d env τ =
      ({ gdf := empty_gdf, events := [], warnings := [], total_tiles := 0,
         processed_tiles := 0, error := some e }, d) := by
  rw [makePredictions, makePredictionsBody, hs]

lemma widthPixelsCalc_zero_width {b : RegionBounds} (h : b.lon2 = b.lon0)
    (cosMeanLat scale : ℚ) : widthPixelsCalc b cosMeanLat scale = 0 := by
  rw [widthPixelsCalc, h]
  norm_num [pyInt]

lemma heightPixelsCalc_zero_height {b : RegionBounds} (h : b.lat2 = b.lat0)
    (scale : ℚ) : heightPixelsCalc b scale = 0 := by
  rw [heightPixelsCalc, h]
  norm_num [pyInt]

lemma n_tiles_int_zero {chip : Nat} (hc : 0 < chip) : n_tiles_int 0 chip = 0 := by
  rw [n_tiles_int, pyFloorDiv, Int.fdiv_eq_ediv _ (by positivity), Int.zero_add]
  apply Int.ediv_eq_zero_of_lt <;> omega

lemma tileGrid_zero_left (ny : Int) : tileGrid 0 ny = [] := by
  rw [tileGrid]
  simp

lemma tileGrid_zero_right (nx : Int) : tileGrid nx 0 = [] := by
  rw [tileGrid]
  simp

lemma tileGrid_length (nx ny : Int) :
    (tileGrid nx ny).length = ny.toNat * nx.toNat := by
  rw [tileGrid, List.length_flatMap]
  have hmap : ∀ y : Nat, ((List.range nx.toNat).map (fun x => (x, y))).length = nx.toNat := by
    intro y
    rw [List.length_map, List.length_range]
  calc ((List.range ny.toNat).map
        (fun y => ((List.range nx.toNat).map (fun x => (x, y))).length)).sum
      = ((List.range ny.toNat).map (fun _ => nx.toNat)).sum := by
        congr 1
        exact List.map_congr_left (fun y _ => hmap y)
    _ = ny.toNat * nx.toNat := by
        rw [List.map_const', List.sum_replicate, List.length_range, smul_eq_mul]

lemma pyInt_nonpos {q : ℚ} (h : q ≤ 0) : pyInt q ≤ 0 := by
  have hnum : q.num ≤ 0 := Rat.num_nonpos.mpr h
  rw [pyInt, show q.num = -(-q.num) from by omega, Int.neg_tdiv]
  have h0 : 0 ≤ (-q.num).tdiv q.den := Int.tdiv_nonneg (by omega) (by positivity)
  omega

lemma pyInt_le_natCast {q : ℚ} {c : Nat} (h : q ≤ (c : ℚ)) : pyInt q ≤ (c : Int) := by
  rcases le_or_lt 0 q with h0 | h0
  · rw [pyInt_eq_floor h0]
    calc Int.floor q ≤ Int.floor ((c : ℚ)) := Int.floor_le_floor h
      _ = (c : Int) := Int.floor_natCast c
  · have h1 : pyInt q ≤ 0 := pyInt_nonpos (le_of_lt h0)
    have h2 : (0 : Int) ≤ (c : Int) := by positivity
    omega

lemma adjustChipSize_of_le {c : Nat} (h : c ≤ max_tile_dimension) :
    adjustChipSize c = c := by
  rw [adjustChipSize, if_neg (by omega)]

lemma makePredictions_snd_ok {d : Deployer} {env : RunEnv} {τ : ℚ} {b : RegionBounds}
    (hs : env.setup = Except.ok b) :
    (makePredictions d env τ).2 = { d with chip_size := adjustChipSize d.chip_size } := by
  rw [makePredictions_setup_ok hs]
  rfl

lemma makePredictions_snd_error {d : Deployer} {env : RunEnv} {τ : ℚ} {e : String}
    (hs : env.setup = Except.error e) :
    (makePredictions d env τ).2 = d := by
  rw [makePredictions_setup_error hs]

lemma makePredictionsOk_fst (d : Deployer) (env : RunEnv) (τ : ℚ) (b : RegionBounds) :
    (makePredictionsOk d env τ b).1 =
      { gdf := if (runTiles (runCfgOf d env τ b) (tilesOf d env b)).geoms = [] then empty_gdf
          else ⟨(runTiles (runCfgOf d env τ b) (tilesOf d env b)).geoms,
                (runTiles (runCfgOf d env τ b) (tilesOf d env b)).confs⟩
        events := (runTiles (runCfgOf d env τ b) (tilesOf d env b)).events
        warnings := (runTiles (runCfgOf d env τ b) (tilesOf d env b)).warnings
        total_tiles := (nxOf d env b * nyOf d env b).toNat
        processed_tiles := (runTiles (runCfgOf d env τ b) (tilesOf d env b)).processed
        error := none } := rfl

lemma tileResults_flatten_length_eq (cfg : RunCfg) (tiles : List (Nat × Nat)) :
    (((tileResults cfg tiles).map TileResult.geometries).flatten).length =
      (((tileResults cfg tiles).map TileResult.confidences).flatten).length := by
  rw [List.length_flatten, List.length_flatten, tileResults, List.map_map, List.map_map,
    List.map_map, List.map_map]
  congr 1
  apply List.map_congr_left
  intro t _
  exact processTile_length.symm

/-! ### Claim theorems -/

/-- C1 (code bug): the `deploy_service.py` variant keeps every raster
request within the 262,144-pixel ceiling after the chip-size clamp (for
every chip size and every aspect ratio), but the `deploy.py` variant
requests `(chip_size + 2) × (chip_size + 2)` pixels; at the default
`chip_size = 576`, clamped to 512, the request is 514 × 514 = 264,196
pixels, which exceeds the ceiling the clamp was meant to enforce. -/
theorem c1_request_pixel_ceiling :
    (∀ (chip : Nat) (r : ℚ),
      (serviceRequestDims (adjustChipSize chip) r).1 *
        (serviceRequestDims (adjustChipSize chip) r).2 ≤ (max_pixels_per_tile : Int))
    ∧ deployRequestDims (adjustChipSize 576) = (514, 514)
    ∧ (max_pixels_per_tile : Int) < 514 * 514 := by
  have hclamp : adjustChipSize 576 = 512 := by
    rw [adjustChipSize, max_tile_dimension_eq]
    norm_num
  refine ⟨?_, by rw [deployRequestDims, hclamp], by norm_num [max_pixels_per_tile]⟩
  intro chip r
  have hle : adjustChipSize chip ≤ 512 := adjustChipSize_le chip
  have hbound : ((adjustChipSize chip : Int)) * (adjustChipSize chip : Int) ≤
      (max_pixels_per_tile : Int) := by
    have h1 : adjustChipSize chip * adjustChipSize chip ≤ 512 * 512 :=
      Nat.mul_le_mul hle hle
    have h2 : (512 : Nat) * 512 ≤ max_pixels_per_tile := by norm_num [max_pixels_per_tile]
    exact_mod_cast le_trans h1 h2
  have hc0 : (0 : Int) ≤ (adjustChipSize chip : Int) := by positivity
  rw [serviceRequestDims]
  by_cases h : 1 < r
  · rw [if_pos h]
    have hdivle : (adjustChipSize chip : ℚ) / r ≤ (adjustChipSize chip : ℚ) :=
      div_le_self (by positivity) (le_of_lt h)
    have h1 : pyInt ((adjustChipSize chip : ℚ) / r) ≤ (adjustChipSize chip : Int) :=
      pyInt_le_natCast hdivle
    calc (adjustChipSize chip : Int) * pyInt ((adjustChipSize chip : ℚ) / r)
        ≤ (adjustChipSize chip : Int) * (adjustChipSize chip : Int) :=
          mul_le_mul_of_nonneg_left h1 hc0
      _ ≤ (max_pixels_per_tile : Int) := hbound
  · rw [if_neg h]
    have hr1 : r ≤ 1 := not_lt.mp h
    have hmulle : (adjustChipSize chip : ℚ) * r ≤ (adjustChipSize chip : ℚ) := by
      calc (adjustChipSize chip : ℚ) * r ≤ (adjustChipSize chip : ℚ) * 1 :=
          mul_le_mul_of_nonneg_left hr1 (by positivity)
        _ = (adjustChipSize chip : ℚ) := mul_one _
    have h1 : pyInt ((adjustChipSize chip : ℚ) * r) ≤ (adjustChipSize chip : Int) :=
      pyInt_le_natCast hmulle
    calc pyInt ((adjustChipSize chip : ℚ) * r) * (adjustChipSize chip : Int)
        ≤ (adjustChipSize chip : Int) * (adjustChipSize chip : Int) :=
          mul_le_mul_of_nonneg_right h1 hc0
      _ ≤ (max_pixels_per_tile : Int) := hbound

/-- C4: for a raster of shape `(H, W, B)` and model input shape
`(c, c, B)` with `c ≥ 2`, the emitted windows are exactly the offsets that
are multiples of the stride `c / 2` on both axes and lie fully inside the
raster (edge windows dropped); window `(0, 0)` is emitted whenever it
fits; and every emitted window has pixel shape exactly `(c, c, B)`. -/
theorem c4_windowing_stride_and_shape (H W B chip : Nat) (h2 : 2 ≤ chip) :
    (∀ i j : Nat,
      (i, j) ∈ keptOffsets ⟨H, W, B⟩ (chip, chip, B) ↔
        (∃ a, i = a * (chip / 2)) ∧ (∃ b, j = b * (chip / 2)) ∧
          i + chip ≤ H ∧ j + chip ≤ W)
    ∧ (chip ≤ H → chip ≤ W → (0, 0) ∈ keptOffsets ⟨H, W, B⟩ (chip, chip, B))
    ∧ ∀ p ∈ keptOffsets ⟨H, W, B⟩ (chip, chip, B),
        patchShape ⟨H, W, B⟩ p.1 p.2 chip = (chip, chip, B) := by
  have hs : 0 < chip / 2 := by omega
  refine ⟨fun i j => mem_keptOffsets hs i j, ?_, ?_⟩
  · intro hH hW
    exact (mem_keptOffsets hs 0 0).mpr ⟨⟨0, by omega⟩, ⟨0, by omega⟩, by omega, by omega⟩
  · intro p hp
    obtain ⟨i, j⟩ := p
    obtain ⟨_, _, hiH, hjW⟩ := (mem_keptOffsets hs i j).mp hp
    have hiH2 : i + chip ≤ H := hiH
    have hjW2 : j + chip ≤ W := hjW
    have hm1 : min chip (H - i) = chip := Nat.min_eq_left (by omega)
    have hm2 : min chip (W - j) = chip := Nat.min_eq_left (by omega)
    simp [patchShape, hm1, hm2]

/-- Witness for C4 at `H = W = 4`, `B = 1`, `c = 2`: the stride is 1 and
the window at offset `(1, 1)` is emitted. -/
theorem c4_windowing_stride_and_shape_witness :
    (1, 1) ∈ keptOffsets ⟨4, 4, 1⟩ (2, 2, 1) :=
  ((c4_windowing_stride_and_shape 4 4 1 2 (by norm_num)).1 1 1).mpr
    ⟨⟨1, rfl⟩, ⟨1, rfl⟩, by norm_num, by norm_num⟩

/-- C8: for positive pixel dimensions and a positive tile size, the
planned tile count equals `ceil(wp / tileSize) * ceil(hp / tileSize)`, and
the enumerated tile grid has exactly that many entries. -/
theorem c8_tile_count_ceil (wp hp chip : Nat) (hw : 0 < wp) (hh : 0 < hp)
    (hc : 0 < chip) :
    totalTilesCalc (wp : Int) (hp : Int) chip =
      Int.ceil ((wp : ℚ) / (chip : ℚ)) * Int.ceil ((hp : ℚ) / (chip : ℚ))
    ∧ (tileGrid (n_tiles_int (wp : Int) chip) (n_tiles_int (hp : Int) chip)).length =
        (totalTilesCalc (wp : Int) (hp : Int) chip).toNat := by
  have h1 := n_tiles_int_natCast wp chip hc
  have h2 := n_tiles_int_natCast hp chip hc
  have hx0 : 0 ≤ n_tiles_int (wp : Int) chip := by
    rw [h1]
    exact Int.ceil_nonneg (by positivity)
  have hy0 : 0 ≤ n_tiles_int (hp : Int) chip := by
    rw [h2]
    exact Int.ceil_nonneg (by positivity)
  constructor
  · rw [totalTilesCalc, h1, h2]
  · rw [tileGrid_length, totalTilesCalc]
    obtain ⟨nx, hnx⟩ := Int.eq_ofNat_of_zero_le hx0
    obtain ⟨ny, hny⟩ := Int.eq_ofNat_of_zero_le hy0
    rw [hnx, hny, ← Nat.cast_mul, Int.toNat_natCast, Int.toNat_natCast, Int.toNat_natCast,
      Nat.mul_comm]

/-- Witness for C8 at pixel dimensions 600 × 11 and tile size 512. -/
theorem c8_tile_count_ceil_witness :
    totalTilesCalc (600 : Nat) (11 : Nat) 512 =
      Int.ceil ((600 : ℚ) / (512 : ℚ)) * Int.ceil ((11 : ℚ) / (512 : ℚ)) :=
  (c8_tile_count_ceil 600 11 512 (by norm_num) (by norm_num) (by norm_num)).1

/-- C10: when the configured chip size exceeds `int(sqrt(262144)) = 512`,
a `make_predictions` call whose setup phase succeeds permanently reduces
`self.chip_size` to 512, and every subsequent call on the same deployer
observes the reduced value. -/
theorem c10_chip_size_mutation (d : Deployer) (env : RunEnv) (τ : ℚ)
    (b : RegionBounds) (hs : env.setup = Except.ok b)
    (hbig : max_tile_dimension < d.chip_size) :
    ((makePredictions d env τ).2).chip_size = max_tile_dimension
    ∧ max_tile_dimension = 512
    ∧ ∀ (env2 : RunEnv) (τ2 : ℚ),
        ((makePredictions (makePredictions d env τ).2 env2 τ2).2).chip_size =
          max_tile_dimension := by
  have hadj : adjustChipSize d.chip_size = max_tile_dimension := by
    rw [adjustChipSize, if_pos hbig]
  have hfst : ((makePredictions d env τ).2).chip_size = max_tile_dimension := by
    rw [makePredictions_snd_ok hs]
    exact hadj
  refine ⟨hfst, max_tile_dimension_eq, ?_⟩
  intro env2 τ2
  rcases hs2 : env2.setup with e | b2
  · rw [makePredictions_snd_error hs2]
    exact hfst
  · rw [makePredictions_snd_ok hs2, hfst, adjustChipSize_of_le (le_refl _)]

/-- Witness for C10: a deployer constructed with chip size 576 comes out
of `make_predictions` with chip size 512. -/
theorem c10_chip_size_mutation_witness :
    ((makePredictions ⟨576⟩ envZeroWidth 0).2).chip_size = max_tile_dimension ∧
      max_tile_dimension = 512 :=
  have h := c10_chip_size_mutation ⟨576⟩ envZeroWidth 0 bZeroWidth rfl
    (by rw [max_tile_dimension_eq]; norm_num)
  ⟨h.1, h.2.1⟩

/-- C2: `make_predictions` never propagates an exception: the top-level
`except` clause converts any escaped error into an empty well-formed
GeoDataFrame, and on every path the returned frame has aligned `geometry`
and `confidence` columns. -/
theorem c2_make_predictions_never_raises (d : Deployer) (env : RunEnv) (τ : ℚ) :
    (makePredictions d env τ).1.gdf.geometry.length =
      (makePredictions d env τ).1.gdf.confidence.length
    ∧ ∀ e : String, env.setup = Except.error e →
        (makePredictions d env τ).1.gdf = empty_gdf ∧
          (makePredictions d env τ).1.error = some e := by
  constructor
  · rcases hs : env.setup with e | b
    · rw [makePredictions_setup_error hs]
      rfl
    · rw [makePredictions_setup_ok hs, makePredictionsOk_fst]
      dsimp only
      split
      · rfl
      · dsimp only
        rw [runTiles_spec]
        exact tileResults_flatten_length_eq _ _
  · intro e hs
    rw [makePredictions_setup_error hs]
    exact ⟨rfl, rfl⟩

/-- Witness for C2: with a setup phase that throws, the caller still
receives an empty well-formed GeoDataFrame plus the error string. -/
theorem c2_make_predictions_never_raises_witness :
    (makePredictions ⟨512⟩ envSetupFail 0).1.gdf = empty_gdf ∧
      (makePredictions ⟨512⟩ envSetupFail 0).1.error = some "time window rejected" :=
  (c2_make_predictions_never_raises ⟨512⟩ envSetupFail 0).2 "time window rejected" rfl

/-- C3: every confidence in the final detection set is at least the run's
threshold; the final count is the sum of the per-tile counts; and on a
scored tile the detections are exactly the zip of predictions and chip
geometries filtered by `confidence ≥ threshold`. -/
theorem c3_threshold_filter_and_count (τ : ℚ) :
    (∀ (d : Deployer) (env : RunEnv),
      ∀ c ∈ (makePredictions d env τ).1.gdf.confidence, τ ≤ c)
    ∧ (∀ (cfg : RunCfg) (tiles : List (Nat × Nat)),
        (runTiles cfg tiles).confs.length =
          ((tileResults cfg tiles).map (fun r => r.confidences.length)).sum)
    ∧ ∀ (tc : TileCoords) (x y : Nat) (ish : Nat × Nat × Nat) (w : TileWorld)
        (tries a : Nat) (img : ImageData) (preds : List ℚ),
        fetchLoop w.fetch tries = (some img, a) → ish.1 / 2 ≠ 0 →
        keptOffsets img ish ≠ [] →
        w.predict (keptOffsets img ish) = Except.ok preds →
        (processTile tc x y ish w τ tries).confidences =
            ((preds.zip (chipGeoms tc img ish)).filter
              (fun pr => decide (τ ≤ pr.1))).map (fun pr => pr.1)
          ∧ (processTile tc x y ish w τ tries).geometries =
            ((preds.zip (chipGeoms tc img ish)).filter
              (fun pr => decide (τ ≤ pr.1))).map (fun pr => pr.2) := by
  refine ⟨?_, ?_, ?_⟩
  · intro d env c hc
    rcases hs : env.setup with e | b
    · rw [makePredictions_setup_error hs] at hc
      simp [empty_gdf] at hc
    · rw [makePredictions_setup_ok hs, makePredictionsOk_fst] at hc
      dsimp only at hc
      split at hc
      · simp [empty_gdf] at hc
      · dsimp only at hc
        rw [runTiles_spec] at hc
        dsimp only at hc
        rw [List.mem_flatten] at hc
        obtain ⟨l, hl, hcl⟩ := hc
        rw [List.mem_map] at hl
        obtain ⟨r, hr, rfl⟩ := hl
        rw [tileResults, List.mem_map] at hr
        obtain ⟨t, _, rfl⟩ := hr
        exact processTile_confs_ge c hcl
  · intro cfg tiles
    rw [runTiles_spec]
    dsimp only
    rw [List.length_flatten, List.map_map]
    rfl
  · intro tc x y ish w tries a img preds hf hstride hk hp
    rw [processTile_scored hf hstride hk hp]
    exact ⟨rfl, rfl⟩

/-- Witness for C3: a 2×2×1 raster under a 2×2×1 model yields one chip,
scored 1, kept at threshold 0. -/
theorem c3_threshold_filter_and_count_witness :
    (processTile tcFix 0 0 (2, 2, 1) okWorld 0 2).confidences =
      ((([1] : List ℚ).zip (chipGeoms tcFix ⟨2, 2, 1⟩ (2, 2, 1))).filter
        (fun pr => decide ((0 : ℚ) ≤ pr.1))).map (fun pr => pr.1) :=
  ((c3_threshold_filter_and_count 0).2.2 tcFix 0 0 (2, 2, 1) okWorld 2 1 ⟨2, 2, 1⟩ [1]
    rfl (by decide) (by decide) rfl).1

/-- C5: when every one of the `tries` fetch attempts raises, the tile
terminates non-fatally with an empty detection list, exactly `tries`
attempts made, and a warning naming its grid coordinates; and the
collection loop always processes every tile of the run regardless of
per-tile outcomes. -/
theorem c5_fetch_retry_nonfatal (tc : TileCoords) (x y : Nat)
    (ish : Nat × Nat × Nat) (w : TileWorld) (τ : ℚ) (tries : Nat)
    (h0 : 0 < tries) (hfail : ∀ k, k < tries → ∃ e, w.fetch k = Except.error e) :
    processTile tc x y ish w τ tries = ⟨[], [], [⟨x, y, true⟩], tries⟩
    ∧ ∀ (cfg : RunCfg) (tiles : List (Nat × Nat)),
        (runTiles cfg tiles).processed = tiles.length := by
  refine ⟨processTile_fetchFail h0 hfail, ?_⟩
  intro cfg tiles
  rw [runTiles_spec]

/-- Witness for C5: a tile at grid position (3, 7) whose two fetch
attempts both raise contributes no detections and logs one warning naming
(3, 7). -/
theorem c5_fetch_retry_nonfatal_witness :
    processTile tcFix 3 7 (2, 2, 1) errWorld 0 2 = ⟨[], [], [⟨3, 7, true⟩], 2⟩ :=
  (c5_fetch_retry_nonfatal tcFix 3 7 (2, 2, 1) errWorld 0 2 (by norm_num)
    (fun k _ => ⟨"connection reset", rfl⟩)).1

/-- C9: with a callback supplied, the collection loop invokes it exactly
once per completed tile; the `k`-th invocation carries cumulative count
`k + 1` and the run's total tile count, and carries the incremental
detections (with the bounding box) exactly when that tile yielded at
least one detection. -/
theorem c9_progress_callback_per_tile (cfg : RunCfg) (tiles : List (Nat × Nat))
    (hcb : cfg.hasCallback = true) :
    (runTiles cfg tiles).events.length = tiles.length
    ∧ ∀ k : Nat,
        ((runTiles cfg tiles).events)[k]? = ((tileResults cfg tiles)[k]?).map (fun r =>
          ⟨k + 1, cfg.total_tiles,
           if r.geometries = [] then none
           else some (r.geometries.zip r.confidences, cfg.bounding_box)⟩) := by
  rw [runTiles_spec]
  dsimp only
  constructor
  · rw [eventsFrom_length cfg hcb, tileResults, List.length_map]
  · intro k
    rw [eventsFrom_getElem cfg hcb (tileResults cfg tiles) 0 k]
    simp

/-- Witness for C9 on a two-tile run: two callback invocations; the first
(for the fetch-failed tile) carries count 1, total 2, and no incremental
detections. -/
theorem c9_progress_callback_per_tile_witness :
    (runTiles cfgFix [(0, 0), (1, 0)]).events.length = 2
    ∧ ((runTiles cfgFix [(0, 0), (1, 0)]).events)[0]?.map
        (fun e => (e.processed, e.total, e.incremental.isSome)) = some (1, 2, false) := by
  have h := c9_progress_callback_per_tile cfgFix [(0, 0), (1, 0)] rfl
  refine ⟨h.1, ?_⟩
  rw [h.2 0]
  rfl

lemma adjustChipSize_512 : adjustChipSize 512 = 512 :=
  adjustChipSize_of_le (by rw [max_tile_dimension_eq])

lemma widthPixels_bTwoTiles : widthPixelsCalc bTwoTiles 1 10 = 600 := by
  have harg : abs ((bTwoTiles.lon2) - bTwoTiles.lon0) * (111320 * (1 : ℚ)) / 10 =
      ((600 : Nat) : ℚ) := by
    show abs (Rat.divInt 600 11132 - 0) * (111320 * 1) / 10 = ((600 : Nat) : ℚ)
    rw [Rat.divInt_eq_div, sub_zero, abs_of_nonneg (by positivity)]
    norm_num
  rw [widthPixelsCalc, harg, pyInt_natCast]
  norm_num

lemma heightPixels_bTwoTiles : heightPixelsCalc bTwoTiles 10 = 1 := by
  have harg : abs ((bTwoTiles.lat2) - bTwoTiles.lat0) * 111320 / 10 = ((1 : Nat) : ℚ) := by
    show abs (Rat.divInt 1 11132 - 0) * 111320 / 10 = ((1 : Nat) : ℚ)
    rw [Rat.divInt_eq_div, sub_zero, abs_of_nonneg (by positivity)]
    norm_num
  rw [heightPixelsCalc, harg, pyInt_natCast]
  norm_num

lemma nxOf_envInferThrow : nxOf ⟨512⟩ envInferThrow bTwoTiles = 2 := by
  show n_tiles_int (widthPixelsCalc bTwoTiles 1 10) (adjustChipSize 512) = 2
  rw [widthPixels_bTwoTiles, adjustChipSize_512]
  decide

lemma nyOf_envInferThrow : nyOf ⟨512⟩ envInferThrow bTwoTiles = 1 := by
  show n_tiles_int (heightPixelsCalc bTwoTiles 10) (adjustChipSize 512) = 1
  rw [heightPixels_bTwoTiles, adjustChipSize_512]
  decide

lemma tilesOf_envInferThrow : tilesOf ⟨512⟩ envInferThrow bTwoTiles = [(0, 0), (1, 0)] := by
  rw [tilesOf, nxOf_envInferThrow, nyOf_envInferThrow]
  decide

/-- C6 counterexample: in a two-tile run in which tile (0, 0)'s classifier
batch call throws, the run does not abort and is not marked failed — it
completes all tiles with `error = none`, logs only a per-tile warning for
(0, 0), and returns the other tile's detection. -/
theorem c6_inference_error_counterexample :
    (makePredictions ⟨512⟩ envInferThrow 0).1.error = none
    ∧ (makePredictions ⟨512⟩ envInferThrow 0).1.total_tiles = 2
    ∧ (makePredictions ⟨512⟩ envInferThrow 0).1.processed_tiles = 2
    ∧ (makePredictions ⟨512⟩ envInferThrow 0).1.gdf.confidence = [1]
    ∧ (makePredictions ⟨512⟩ envInferThrow 0).1.warnings = [⟨0, 0, false⟩] := by
  rw [makePredictions_setup_ok (rfl : envInferThrow.setup = Except.ok bTwoTiles),
    makePredictionsOk_fst, tilesOf_envInferThrow]
  refine ⟨rfl, ?_, rfl, rfl, rfl⟩
  rw [nxOf_envInferThrow, nyOf_envInferThrow]
  rfl

/-- C6 amended: a classifier batch call that throws is caught inside
`_process_tile`: the tile contributes zero detections and one warning
naming its grid coordinates; the collection loop still processes every
tile; and a run whose setup succeeded completes with `error = none`
regardless of per-tile classifier failures. -/
theorem c6_inference_error_caught_per_tile (tc : TileCoords) (x y : Nat)
    (ish : Nat × Nat × Nat) (w : TileWorld) (τ : ℚ) (tries a : Nat)
    (img : ImageData) (hf : fetchLoop w.fetch tries = (some img, a))
    (hstride : ish.1 / 2 ≠ 0) (hk : keptOffsets img ish ≠ [])
    (he : ∃ e, w.predict (keptOffsets img ish) = Except.error e) :
    processTile tc x y ish w τ tries = ⟨[], [], [⟨x, y, false⟩], a⟩
    ∧ (∀ (cfg : RunCfg) (tiles : List (Nat × Nat)),
        (runTiles cfg tiles).processed = tiles.length)
    ∧ ∀ (d : Deployer) (env : RunEnv) (τ2 : ℚ) (b : RegionBounds),
        env.setup = Except.ok b → (makePredictions d env τ2).1.error = none := by
  refine ⟨processTile_predictError hf hstride hk he, ?_, ?_⟩
  · intro cfg tiles
    rw [runTiles_spec]
  · intro d env τ2 b hs
    rw [makePredictions_setup_ok hs, makePredictionsOk_fst]

/-- Witness for the amended C6: the tile whose classifier throws returns
empty detections with one warning. -/
theorem c6_inference_error_caught_per_tile_witness :
    processTile tcFix 0 0 (2, 2, 1) inferThrowWorld 0 2 = ⟨[], [], [⟨0, 0, false⟩], 1⟩ :=
  (c6_inference_error_caught_per_tile tcFix 0 0 (2, 2, 1) inferThrowWorld 0 2 1 ⟨2, 2, 1⟩
    rfl (by decide) (by decide) ⟨"batch inference failed", rfl⟩).1

/-- C7 counterexample: on a region whose bounding box has zero width, the
run does not fail with an "empty region" domain error — it computes zero
tiles and completes normally with `error = none` and an empty well-formed
detection set. -/
theorem c7_empty_region_counterexample :
    (makePredictions ⟨512⟩ envZeroWidth 0).1.error = none
    ∧ (makePredictions ⟨512⟩ envZeroWidth 0).1.total_tiles = 0
    ∧ (makePredictions ⟨512⟩ envZeroWidth 0).1.processed_tiles = 0
    ∧ (makePredictions ⟨512⟩ envZeroWidth 0).1.gdf = empty_gdf
    ∧ (makePredictions ⟨512⟩ envZeroWidth 0).1.events = [] := by
  have hnx : nxOf ⟨512⟩ envZeroWidth bZeroWidth = 0 := by
    show n_tiles_int (widthPixelsCalc bZeroWidth 1 10) (adjustChipSize 512) = 0
    rw [widthPixelsCalc_zero_width rfl 1 10, adjustChipSize_512]
    exact n_tiles_int_zero (by norm_num)
  have htiles : tilesOf ⟨512⟩ envZeroWidth bZeroWidth = [] := by
    rw [tilesOf, hnx, tileGrid_zero_left]
  rw [makePredictions_setup_ok (rfl : envZeroWidth.setup = Except.ok bZeroWidth),
    makePredictionsOk_fst, htiles]
  refine ⟨rfl, ?_, rfl, rfl, rfl⟩
  rw [hnx, Int.zero_mul]
  rfl

/-- C7 amended: a degenerate region (zero-width or zero-height bounding
box) is not rejected with a domain error; its pixel dimension computes to
0, the planner produces zero tiles, and the run completes successfully
with an empty well-formed detection set — the code has no "empty region"
failure path. -/
theorem c7_degenerate_region_zero_tiles (d : Deployer) (env : RunEnv) (τ : ℚ)
    (b : RegionBounds) (hs : env.setup = Except.ok b)
    (hchip : 0 < adjustChipSize d.chip_size)
    (hdeg : b.lon2 = b.lon0 ∨ b.lat2 = b.lat0) :
    (makePredictions d env τ).1.error = none
    ∧ (makePredictions d env τ).1.total_tiles = 0
    ∧ (makePredictions d env τ).1.processed_tiles = 0
    ∧ (makePredictions d env τ).1.gdf = empty_gdf
    ∧ (makePredictions d env τ).1.events = [] := by
  have htiles : tilesOf d env b = [] ∧ nxOf d env b * nyOf d env b = 0 := by
    rcases hdeg with h | h
    · have hnx : nxOf d env b = 0 := by
        rw [nxOf, widthPixelsCalc_zero_width h, n_tiles_int_zero hchip]
      exact ⟨by rw [tilesOf, hnx, tileGrid_zero_left], by rw [hnx, Int.zero_mul]⟩
    · have hny : nyOf d env b = 0 := by
        rw [nyOf, heightPixelsCalc_zero_height h, n_tiles_int_zero hchip]
      exact ⟨by rw [tilesOf, hny, tileGrid_zero_right], by rw [hny, Int.mul_zero]⟩
  rw [makePredictions_setup_ok hs, makePredictionsOk_fst, htiles.1]
  refine ⟨rfl, ?_, rfl, rfl, rfl⟩
  rw [htiles.2]
  rfl

/-- Witness for the amended C7, on the zero-width region fixture. -/
theorem c7_degenerate_region_zero_tiles_witness :
    (makePredictions ⟨576⟩ envZeroWidth 0).1.total_tiles = 0
    ∧ (makePredictions ⟨576⟩ envZeroWidth 0).1.error = none :=
  have h := c7_degenerate_region_zero_tiles ⟨576⟩ envZeroWidth 0 bZeroWidth rfl
    (by rw [adjustChipSize, max_tile_dimension_eq]; norm_num) (Or.inl rfl)
  ⟨h.2.1, h.1⟩

end SatSearch
